import Mathlib

/-!
Shallow embedding of `src/lib/content/read.js` (integrity-verified read access
to a content-addressable store) and proofs about its digest-resolution and
access operations.

External collaborators (the `ssri` integrity library, the path mapper of
`lib/content/path.js`, and the filesystem primitives) are modelled as explicit
function parameters or small executable models, as the specification treats
them (contracts only).  Machine-level JS value semantics that the source
relies on (truthiness of a settled value, property access on `undefined`)
are made explicit through a small runtime model.
-/

set_option autoImplicit false

deriving instance DecidableEq for Except

namespace Cacache

/-- One parsed digest entry (a `Hash` object of the external `ssri` library):
an algorithm name together with its digest string. -/
structure Hash where
  algorithm : String
  digest : String
deriving DecidableEq, Repr

/-- `Hash.prototype.toString`: the textual `algorithm-digest` form. -/
def Hash.toStr (h : Hash) : String :=
  h.algorithm ++ "-" ++ h.digest

/-- A parsed integrity descriptor (an `Integrity` object of `ssri`): an ordered
mapping from algorithm name to the ordered digest entries for that algorithm. -/
structure Sri where
  entries : List (String × List Hash)
deriving DecidableEq, Repr

/-- `Integrity.prototype.toString`: every digest entry in descriptor order,
space separated. -/
def Sri.toStr (s : Sri) : String :=
  String.intercalate " " (s.entries.flatMap (fun p => p.2.map Hash.toStr))

/-- The algorithm priority list of the external `ssri` collaborator
(`DEFAULT_PRIORITY`); higher index means preferred. -/
def DEFAULT_PRIORITY : List String :=
  ["md5", "whirlpool", "sha1", "sha224", "sha256", "sha384", "sha512"]

/-- JS `Array.prototype.indexOf`: index of the first occurrence, `-1` if absent. -/
def jsIndexOf (l : List String) (a : String) : Int :=
  match l.findIdx? (fun x => x == a) with
  | some i => (i : Int)
  | none => -1

/-- `ssri`'s `getPrioritizedHash(algo1, algo2)`: keep the algorithm with the
higher priority index (ties keep the first argument). -/
def getPrioritizedHash (a b : String) : String :=
  if jsIndexOf DEFAULT_PRIORITY a ≥ jsIndexOf DEFAULT_PRIORITY b then a else b

/-- `Integrity.prototype.pickAlgorithm`: reduce the descriptor's algorithm keys
with `getPrioritizedHash`; `none` models the throw on an empty descriptor. -/
def Sri.pickAlgorithm (s : Sri) : Option String :=
  match s.entries.map Prod.fst with
  | [] => none
  | k :: ks => some (ks.foldl getPrioritizedHash k)

/-- `sri[algo]`: the digest entries recorded for `algo` (the empty list models
the absent property). -/
def Sri.digestsFor (s : Sri) (algo : String) : List Hash :=
  match s.entries.find? (fun p => p.1 == algo) with
  | some p => p.2
  | none => []

/-- A structured JS error: its message, the optional `code` discriminator and
the extra properties attached by this module's error constructors. -/
structure Err where
  message : String := ""
  code : Option String := none
  expected : Option Int := none
  found : Option Int := none
  sri : Option Hash := none
  path : Option String := none
deriving DecidableEq, Repr

/-- `sizeError(expected, found)` (source lines 232-238). -/
def sizeError (expected found : Int) : Err :=
  { message := "Bad data size: expected inserted data to be " ++ toString expected
      ++ " bytes, but got " ++ toString found ++ " instead"
    code := some "EBADSIZE"
    expected := some expected
    found := some found }

/-- `integrityError(sri, path)` (source lines 240-246). -/
def integrityError (sri : Hash) (path : String) : Err :=
  { message := "Integrity verification failed for " ++ sri.toStr ++ " (" ++ path ++ ")"
    code := some "EINTEGRITY"
    sri := some sri
    path := some path }

/-- The aggregate error synthesized in the multi-candidate branch (source
lines 167-170): `No matching content found for <descriptor>` with code ENOENT. -/
def noMatchingContentError (sri : Sri) : Err :=
  { message := "No matching content found for " ++ sri.toStr
    code := some "ENOENT" }

/-- The error thrown by `ssri`'s `pickAlgorithm` on a descriptor with no
algorithms at all. -/
def noAlgorithmsError (sri : Sri) : Err :=
  { message := "No algorithms available for " ++ sri.toStr }

/-- The `TypeError` raised by a property access on `undefined`
(`results.find((r) => r.code === 'ENOENT')` over a result that settled with
`undefined`, source line 183). -/
def codeOfUndefinedError : Err :=
  { message := "TypeError: Cannot read properties of undefined (reading code)" }

/-- Sentinel for the control paths on which the JS function falls off the end
and produces `undefined` instead of a value of the expected type.  Every such
path is unreachable under the descriptor well-formedness invariant (at least
one digest entry per algorithm) and the actual access functions. -/
def undefinedResolutionError : Err :=
  { message := "resolver produced undefined" }

/-- An `ENOENT` filesystem failure for `path`, as `fs.lstat`/`fs.readFile`
produce it. -/
def enoentError (path : String) : Err :=
  { message := "ENOENT: no such file or directory " ++ path
    code := some "ENOENT"
    path := some path }

/-- A settled promise of the non-blocking world: the (virtual) time at which it
settles and the value it settles with (`error` models rejection). -/
structure Promise (α : Type) where
  time : Nat
  result : Except Err α

/-- `p.then(f)` with a synchronous continuation: runs `f` at `p`'s settle time;
a rejection of `p` skips `f`, a throw inside `f` rejects. -/
def Promise.thenE {α β : Type} (p : Promise α) (f : α → Except Err β) : Promise β :=
  { time := p.time
    result := p.result.bind f }

/-- `p.then(f)` with a promise-returning continuation: the chained promise
settles after both. -/
def Promise.bindP {α β : Type} (p : Promise α) (f : α → Promise β) : Promise β :=
  match p.result with
  | .error e => { time := p.time, result := .error e }
  | .ok a => { time := p.time + (f a).time, result := (f a).result }

/-- `p.catch(h)` with a handler that may rethrow. -/
def Promise.catchE {α : Type} (p : Promise α) (h : Err → Except Err α) : Promise α :=
  { time := p.time
    result := match p.result with
      | .ok a => .ok a
      | .error e => h e }

/-- The fulfillment value of `Promise.all`: the settled values in the original
list order, or the first rejection. -/
def collectResults {α : Type} : List (Promise α) → Except Err (List α)
  | [] => .ok []
  | p :: ps =>
    match p.result with
    | .error e => .error e
    | .ok a =>
      match collectResults ps with
      | .error e => .error e
      | .ok l => .ok (a :: l)

/-- `Promise.all`: settles once every input promise has settled (the join is at
the maximum settle time); the fulfillment values keep the original list order.
(Promise.all rejects at the time of the first rejection; every use below feeds
it promises that never reject — see `candidateCatch` — so the simpler
first-in-list-order rejection of `collectResults` is never exercised.) -/
def promiseAll {α : Type} (ps : List (Promise α)) : Promise (List α) :=
  { time := (ps.map Promise.time).foldr max 0
    result := collectResults ps }

/-- A JS value that is either an ordinary value or an `Error` object, as the
candidate promises of the multi-entry branch settle with
(`r instanceof Error` discriminates them). -/
inductive JsVal (α : Type) where
  | val (a : α)
  | err (e : Err)
deriving DecidableEq, Repr

/-- `r instanceof Error`. -/
def JsVal.isError {α : Type} : JsVal α → Bool
  | .val _ => false
  | .err _ => true

/-- Dynamic-semantics model for the settled values of type `α`: JS truthiness
of a value, and the outcome of accessing its `code` property (`some te` means
the access itself throws `te`, as it does on `undefined`; `none` means the
access yields something that is not the string `'ENOENT'`, as it does on
buffers and plain objects, which have no `code` property). -/
structure JsRuntime (α : Type) where
  truthy : α → Bool
  codeAccess : α → Option Err

/-- Buffers and the plain objects produced by the read/stream/stat access
functions: always truthy, no `code` property. -/
def objectRuntime (α : Type) : JsRuntime α :=
  { truthy := fun _ => true, codeAccess := fun _ => none }

/-- The `undefined` value the copy access function settles with: falsy, and a
property access on it throws. -/
def undefinedRuntime : JsRuntime Unit :=
  { truthy := fun _ => false, codeAccess := fun _ => some codeOfUndefinedError }

/-- The integrity argument of the resolver: an already-parsed descriptor, a
single digest entry (as the recursive call of the multi-entry branch passes),
or an input on which the external `ssri.parse` collaborator throws. -/
inductive IntegrityInput where
  | sri (s : Sri)
  | hash (h : Hash)
  | bad (e : Err)
deriving DecidableEq, Repr

/-- Model of the external `ssri.parse` collaborator: a parsed descriptor is
returned as is, a single digest entry re-parses to its singleton descriptor,
and a malformed input throws. -/
def ssriParse : IntegrityInput → Except Err Sri
  | .sri s => .ok s
  | .hash h => .ok { entries := [(h.algorithm, [h])] }
  | .bad e => .error e

/-- Whether an outcome is a success (used to talk about "the first candidate
that succeeded"). -/
def isOkE {α : Type} : Except Err α → Bool
  | .ok _ => true
  | .error _ => false

/-- The error kept by the per-candidate `.catch` handler: an `ENOENT`
rejection is replaced by the synthesized aggregate error, any other rejection
is kept as is (source lines 165-173). -/
def caughtErr (sri : Sri) (e : Err) : Err :=
  if e.code == some "ENOENT" then noMatchingContentError sri else e

/-- The per-candidate `.catch` handler of the multi-entry branch (source lines
165-173): the rejection is turned into an ordinary fulfillment value (via
`caughtErr`), so a candidate promise never rejects. -/
def jsCaught {α : Type} (sri : Sri) : Except Err α → JsVal α
  | .ok a => .val a
  | .error e => .err (caughtErr sri e)

/-- A candidate promise of the multi-entry branch: the recursive resolution of
one digest entry with the `.catch` handler attached. -/
def candidateCatch {α : Type} (sri : Sri) (p : Promise α) : Promise (JsVal α) :=
  { time := p.time
    result := .ok (jsCaught sri p.result) }

/-- `results.find((r) => r.code === 'ENOENT')` (source line 183): walks the
settled results in order; on an `Error` element the `code` property is read
directly, on an ordinary value the access follows the runtime model and may
itself throw. -/
def findEnoentErr {α : Type} (jsα : JsRuntime α) : List (JsVal α) → Except Err (Option Err)
  | [] => .ok none
  | .err e :: rest =>
    if e.code == some "ENOENT" then .ok (some e) else findEnoentErr jsα rest
  | .val a :: rest =>
    match jsα.codeAccess a with
    | some te => .error te
    | none => findEnoentErr jsα rest

/-- The error half of the decision policy (source lines 182-192): throw the
first `ENOENT` result, else throw the first `Error` result; if neither exists
the JS handler falls off the end and fulfils with `undefined` (unreachable in
this module, marked by the sentinel). -/
def decideErrors {α : Type} (jsα : JsRuntime α) (results : List (JsVal α)) : Except Err α :=
  match findEnoentErr jsα results with
  | .error te => .error te
  | .ok (some e) => .error e
  | .ok none =>
    match results.find? (fun r => r.isError) with
    | some (.err e) => .error e
    | _ => .error undefinedResolutionError

/-- The decision policy run once all candidates have settled (source lines
175-193): `const result = results.find((r) => !(r instanceof Error))` followed
by `if (result) return result` — note the truthiness test, a falsy success
value falls through to the error half. -/
def decideResults {α : Type} (jsα : JsRuntime α) (results : List (JsVal α)) : Except Err α :=
  match results.find? (fun r => !r.isError) with
  | some (.val a) => if jsα.truthy a then .ok a else decideErrors jsα results
  | _ => decideErrors jsα results

/-- The recursive call `withContentSri(cache, meta, fn)` of the multi-entry
branch always receives one digest entry `meta`: re-parsing it yields its
singleton descriptor, whose picked algorithm is the entry's own and whose
digest list is `[meta]`, so the resolution reduces to invoking `fn` on the
mapped content path (nothing on this path throws synchronously, so the promise
wrapper is transparent).  The bounded recursion of the source is unrolled with
this definition at the recursive call site; `withContentSri_hash` below proves
the unrolling exact. -/
def withContentSriEntry {α : Type} (cpathFn : String → Hash → String) (cache : String)
    (h : Hash) (fn : String → Hash → Promise α) : Promise α :=
  fn (cpathFn cache h) h

/-- `withContentSri(cache, integrity, fn)` (source lines 149-206): parse the
descriptor, pick an algorithm, and resolve its digest entries — directly for a
single entry, through the concurrent fan-out with the settled-results decision
policy for several.  The `tryFn` value is the body of the inner closure; the
final match is the `new Promise` wrapper of lines 197-205, which converts a
synchronous throw of `tryFn` into a rejection. -/
def withContentSri {α : Type} (jsα : JsRuntime α) (cpathFn : String → Hash → String)
    (cache : String) (input : IntegrityInput) (fn : String → Hash → Promise α) : Promise α :=
  let tryFn : Except Err (Promise α) :=
    match ssriParse input with
    | .error e => .error e
    | .ok sri =>
      match sri.pickAlgorithm with
      | none => .error (noAlgorithmsError sri)
      | some algo =>
        match sri.digestsFor algo with
        | [] => .error undefinedResolutionError
        | [d] => .ok (fn (cpathFn cache d) d)
        | digests =>
          .ok ((promiseAll (digests.map (fun meta =>
              candidateCatch sri (withContentSriEntry cpathFn cache meta fn)))).thenE
            (fun results => decideResults jsα results))
  match tryFn with
  | .ok p => p
  | .error e => { time := 0, result := .error e }

/-- Counterpart of `withContentSriEntry` for the synchronous resolver's
recursive call (source line 221). -/
def withContentSriSyncEntry {α : Type} (cpathFn : String → Hash → String) (cache : String)
    (h : Hash) (fn : String → Hash → Except Err α) : Except Err α :=
  fn (cpathFn cache h) h

/-- The `for (const meta of ...)` loop of `withContentSriSync` (source lines
218-228): try each candidate in order, return the first success, remember the
last error; after the loop, throw the last error if one was recorded
(otherwise the JS function returns `undefined` — unreachable, the loop is
entered with at least two digests). -/
def withContentSriSyncLoop {α : Type} (cpathFn : String → Hash → String) (cache : String)
    (fn : String → Hash → Except Err α) : List Hash → Option Err → Except Err α
  | [], none => .error undefinedResolutionError
  | [], some e => .error e
  | meta :: rest, lastErr =>
    match withContentSriSyncEntry cpathFn cache meta fn with
    | .ok a => .ok a
    | .error e =>
      let _ := lastErr
      withContentSriSyncLoop cpathFn cache fn rest (some e)

/-- `withContentSriSync(cache, integrity, fn)` (source lines 208-230): same
resolution as `withContentSri`, but candidates are tried strictly in order
with first-success short-circuit and last-error reporting; throws propagate
directly (there is no promise wrapper). -/
def withContentSriSync {α : Type} (cpathFn : String → Hash → String) (cache : String)
    (input : IntegrityInput) (fn : String → Hash → Except Err α) : Except Err α :=
  match ssriParse input with
  | .error e => .error e
  | .ok sri =>
    match sri.pickAlgorithm with
    | none => .error (noAlgorithmsError sri)
    | some algo =>
      match sri.digestsFor algo with
      | [] => .error undefinedResolutionError
      | [d] => fn (cpathFn cache d) d
      | digests => withContentSriSyncLoop cpathFn cache fn digests none

/-- A JS value as it can arrive in the `size` option slot: the operations only
ever test `typeof opts.size === 'number'` and compare it with a byte length. -/
inductive JsValue where
  | num (n : Int)
  | str (s : String)
  | boolv (b : Bool)
  | nullv
  | undef
deriving DecidableEq, Repr

/-- `typeof v === 'number'`. -/
def JsValue.isNumber : JsValue → Bool
  | .num _ => true
  | _ => false

/-- The options accepted by every operation after the `ReadOpts` pudding
filtered them: only `size` is recognized. -/
structure ReadOpts where
  size : JsValue := .undef
deriving DecidableEq, Repr

/-- File contents as a byte list (only the bytes and their count matter). -/
abbrev Bytes := List Nat

/-- A concrete model filesystem: contents by path. -/
abbrev Fsys := String → Option Bytes

/-- `util.promisify(fs.readFile)` over the model filesystem: fulfils with the
stored bytes, rejects with `ENOENT` for an absent path. -/
def fsReadFile (fsys : Fsys) (path : String) : Promise Bytes :=
  { time := 0
    result := match fsys path with
      | some data => .ok data
      | none => .error (enoentError path) }

/-- The validation the non-blocking read's access callback performs on the
bytes it read (source lines 25-33): the size check against a numeric `size`
option first, then the digest check through the external `ssri.checkData`
collaborator. -/
def readValidate (checkData : Bytes → Hash → Bool) (opts : ReadOpts) (cpath : String)
    (sri : Hash) (data : Bytes) : Except Err Bytes :=
  match opts.size with
  | .num n =>
    if n ≠ (data.length : Int) then .error (sizeError n (data.length : Int))
    else if checkData data sri then .ok data
    else .error (integrityError sri cpath)
  | _ =>
    if checkData data sri then .ok data
    else .error (integrityError sri cpath)

/-- The validation the blocking read performs after `fs.readFileSync` (source
lines 44-52, transcribed separately from its non-blocking twin). -/
def readSyncValidate (checkData : Bytes → Hash → Bool) (opts : ReadOpts) (cpath : String)
    (sri : Hash) (data : Bytes) : Except Err Bytes :=
  match opts.size with
  | .num n =>
    if n ≠ (data.length : Int) then .error (sizeError n (data.length : Int))
    else if checkData data sri then .ok data
    else .error (integrityError sri cpath)
  | _ =>
    if checkData data sri then .ok data
    else .error (integrityError sri cpath)

/-- `read(cache, integrity, opts)` (source lines 21-36): resolve, read the
whole file, validate.  `readFileF` is the promisified `fs.readFile`,
`checkData` the external `ssri.checkData` collaborator. -/
def read (cpathFn : String → Hash → String) (readFileF : String → Promise Bytes)
    (checkData : Bytes → Hash → Bool) (cache : String) (input : IntegrityInput)
    (opts : ReadOpts) : Promise Bytes :=
  withContentSri (objectRuntime Bytes) cpathFn cache input (fun cpath sri =>
    (readFileF cpath).thenE (fun data => readValidate checkData opts cpath sri data))

/-- `readSync(cache, integrity, opts)` (source lines 40-54). -/
def readSync (cpathFn : String → Hash → String) (readFileSyncF : String → Except Err Bytes)
    (checkData : Bytes → Hash → Bool) (cache : String) (input : IntegrityInput)
    (opts : ReadOpts) : Except Err Bytes :=
  withContentSriSync cpathFn cache input (fun cpath sri =>
    (readFileSyncF cpath).bind (fun data => readSyncValidate checkData opts cpath sri data))

/-- An `fs.Stats` record (only its size matters to this module). -/
structure Stat where
  size : Int
deriving DecidableEq, Repr

/-- The `{ cpath, sri, stat }` record the stream resolution settles with. -/
structure ResolvedContent where
  cpath : String
  sri : Hash
  stat : Stat
deriving DecidableEq, Repr

/-- What the returned stream eventually observes: either the piped content
finished, or an `error` event carrying the failure. -/
inductive StreamEvent where
  | finished
  | errored (e : Err)
deriving DecidableEq, Repr

/-- `readStream(cache, integrity, opts)` (source lines 59-79): a `PassThrough`
stream (the `Unit` component) is created and returned synchronously; the
resolution (`withContentSri` with an lstat access function), the pipe through
the digest-verifying transform (`pipeF`, modelling
`pipe(createReadStream, ssri.integrityStream, stream)`), and the final
`.catch((err) => stream.emit('error', err))` populate the event channel.  The
event promise always fulfils: every failure becomes an `error` event, never a
synchronous throw or an unhandled rejection. -/
def readStream (cpathFn : String → Hash → String) (lstatF : String → Promise Stat)
    (pipeF : String → Hash → JsValue → Promise Unit) (cache : String)
    (input : IntegrityInput) (opts : ReadOpts) : Unit × Promise StreamEvent :=
  let stream : Unit := ()
  let resolved : Promise ResolvedContent :=
    withContentSri (objectRuntime ResolvedContent) cpathFn cache input (fun cpath sri =>
      (lstatF cpath).thenE (fun stat => .ok { cpath := cpath, sri := sri, stat := stat }))
  let piped : Promise Unit := resolved.bindP (fun r => pipeF r.cpath r.sri opts.size)
  (stream,
    { time := piped.time
      result := .ok (match piped.result with
        | .ok _ => .finished
        | .error e => .errored e) })

/-- The names assigned on `module.exports`, in assignment order; `copy` and
`copy.sync` are assigned only inside `if (fs.copyFile) { ... }` (source lines
19, 38, 56-57, 81-86, 102, 124). -/
def moduleExports (hasCopyFile : Bool) : List String :=
  ["read", "sync", "stream", "readStream"]
    ++ (if hasCopyFile then ["copy", "copy.sync"] else [])
    ++ ["hasContent", "hasContent.sync"]

/-- `copy(cache, integrity, dest, opts)` (source lines 88-93): resolve, then
hand the resolved path and the destination straight to the promisified
`fs.copyFile` collaborator; no size or digest check is interposed (the access
callback neither receives nor consults a verifier), and the settled value is
`undefined` (hence the `undefinedRuntime`). -/
def copy (cpathFn : String → Hash → String) (copyFileF : String → String → Promise Unit)
    (cache : String) (input : IntegrityInput) (dest : String) (opts : ReadOpts) :
    Promise Unit :=
  let _ := opts
  withContentSri undefinedRuntime cpathFn cache input (fun cpath _sri => copyFileF cpath dest)

/-- `copySync(cache, integrity, dest, opts)` (source lines 95-100). -/
def copySync (cpathFn : String → Hash → String)
    (copyFileSyncF : String → String → Except Err Unit) (cache : String)
    (input : IntegrityInput) (dest : String) (opts : ReadOpts) : Except Err Unit :=
  let _ := opts
  withContentSriSync cpathFn cache input (fun cpath _sri => copyFileSyncF cpath dest)

/-- What `hasContent` settles with: the `{ size, sri, stat }` record, the
literal `false`, or `undefined` (the catch handler falling off its end). -/
inductive HasContentResult where
  | found (size : Int) (sri : Hash) (stat : Stat)
  | notFound
  | undef
deriving DecidableEq, Repr

/-- `hasContent(cache, integrity)` (source lines 104-122): `false` without
resolving when no descriptor is supplied; otherwise resolve with an lstat
access function and classify the failure in the catch handler — `ENOENT`
becomes `false`, `EPERM` becomes `false` on win32 and is rethrown elsewhere,
and any other code falls off the end of the handler, fulfilling with
`undefined`. -/
def hasContent (cpathFn : String → Hash → String) (lstatF : String → Promise Stat)
    (platform : String) (cache : String) (input : Option IntegrityInput) :
    Promise HasContentResult :=
  match input with
  | none => { time := 0, result := .ok .notFound }
  | some integrity =>
    (withContentSri (objectRuntime HasContentResult) cpathFn cache integrity
        (fun cpath sri =>
          (lstatF cpath).thenE (fun stat => .ok (.found stat.size sri stat)))).catchE
      (fun err =>
        if err.code == some "ENOENT" then .ok .notFound
        else if err.code == some "EPERM" then
          (if platform ≠ "win32" then .error err else .ok .notFound)
        else .ok .undef)

/-- `hasContentSync(cache, integrity)` (source lines 126-147): same
classification, but performed inside the access callback's own try/catch, so
the resolver only ever sees a successful return or a rethrown `EPERM`. -/
def hasContentSync (cpathFn : String → Hash → String)
    (lstatSyncF : String → Except Err Stat) (platform : String) (cache : String)
    (input : Option IntegrityInput) : Except Err HasContentResult :=
  match input with
  | none => .ok .notFound
  | some integrity =>
    withContentSriSync cpathFn cache integrity (fun cpath sri =>
      match lstatSyncF cpath with
      | .ok stat => .ok (.found stat.size sri stat)
      | .error err =>
        if err.code == some "ENOENT" then .ok .notFound
        else if err.code == some "EPERM" then
          (if platform ≠ "win32" then .error err else .ok .notFound)
        else .ok .undef)

/-! Concrete fixtures used by the closed instances below. -/

/-- A first sha512 digest entry. -/
def cHashA : Hash := { algorithm := "sha512", digest := "aaa" }

/-- A second sha512 digest entry. -/
def cHashB : Hash := { algorithm := "sha512", digest := "bbb" }

/-- A two-candidate descriptor: one algorithm, two digest entries. -/
def cSri2 : Sri := { entries := [("sha512", [cHashA, cHashB])] }

/-- A concrete path mapper in the shape of `lib/content/path.js`. -/
def cPathFn : String → Hash → String :=
  fun cache h => cache ++ "/content/" ++ h.algorithm ++ "/" ++ h.digest

/-- A permission failure whose code is neither ENOENT nor EPERM. -/
def eaccesErr : Err := { message := "EACCES: permission denied", code := some "EACCES" }

/-- An EPERM failure. -/
def epermErr : Err := { message := "EPERM: operation not permitted", code := some "EPERM" }

/-- An access function whose first candidate succeeds slowly and whose second
candidate succeeds quickly — the completion order is the reverse of the entry
order. -/
def cFnSlowFirst : String → Hash → Promise Bytes :=
  fun p _ => if p = "cache/content/sha512/aaa"
    then { time := 9, result := .ok [1] }
    else { time := 1, result := .ok [2] }

/-- An access function whose first candidate fails fast with a generic
`EACCES` and whose second candidate fails later with `ENOENT`. -/
def cFnMixedFail : String → Hash → Promise Bytes :=
  fun p _ => if p = "cache/content/sha512/aaa"
    then { time := 1, result := .error eaccesErr }
    else { time := 2, result := .error (enoentError p) }

/-- The path-tagged generic error raised per digest entry by `cFnSyncFail`. -/
def cBoomErr (m : Hash) : Err :=
  { message := "boom cache/content/" ++ m.algorithm ++ "/" ++ m.digest
    code := some "EACCES" }

/-- A synchronous access function that fails on every candidate with a
path-tagged generic error. -/
def cFnSyncFail : String → Hash → Except Err Bytes :=
  fun p _ => .error { message := "boom " ++ p, code := some "EACCES" }

/-! Shared lemmas about the resolver machinery. -/

/-- The promise wrapper and re-parse make the resolver applied to a single
digest entry exactly the access call on its mapped path: the unrolled
recursive call `withContentSriEntry` is the resolver itself on that entry. -/
theorem withContentSri_hash {α : Type} (jsα : JsRuntime α) (cpathFn : String → Hash → String)
    (cache : String) (h : Hash) (fn : String → Hash → Promise α) :
    withContentSri jsα cpathFn cache (.hash h) fn = withContentSriEntry cpathFn cache h fn := by
  simp [withContentSri, ssriParse, Sri.pickAlgorithm, Sri.digestsFor, withContentSriEntry,
    List.find?]

/-- Same fact for the synchronous resolver. -/
theorem withContentSriSync_hash {α : Type} (cpathFn : String → Hash → String)
    (cache : String) (h : Hash) (fn : String → Hash → Except Err α) :
    withContentSriSync cpathFn cache (.hash h) fn = withContentSriSyncEntry cpathFn cache h fn := by
  simp [withContentSriSync, ssriParse, Sri.pickAlgorithm, Sri.digestsFor,
    withContentSriSyncEntry, List.find?]

/-- On a descriptor whose picked algorithm holds exactly one digest entry the
resolver is the access call on that entry's mapped path. -/
theorem withContentSri_single {α : Type} (jsα : JsRuntime α)
    (cpathFn : String → Hash → String) (cache : String) (input : IntegrityInput)
    (fn : String → Hash → Promise α) (s : Sri) (algo : String) (d : Hash)
    (hparse : ssriParse input = .ok s) (hpick : s.pickAlgorithm = some algo)
    (hds : s.digestsFor algo = [d]) :
    withContentSri jsα cpathFn cache input fn = fn (cpathFn cache d) d := by
  simp [withContentSri, hparse, hpick, hds]

/-- Synchronous counterpart of `withContentSri_single`. -/
theorem withContentSriSync_single {α : Type} (cpathFn : String → Hash → String)
    (cache : String) (input : IntegrityInput) (fn : String → Hash → Except Err α)
    (s : Sri) (algo : String) (d : Hash)
    (hparse : ssriParse input = .ok s) (hpick : s.pickAlgorithm = some algo)
    (hds : s.digestsFor algo = [d]) :
    withContentSriSync cpathFn cache input fn = fn (cpathFn cache d) d := by
  simp [withContentSriSync, hparse, hpick, hds]

/-- On a descriptor with at least two digest entries the resolver is the join
of the caught candidate promises followed by the decision policy. -/
theorem withContentSri_multi {α : Type} (jsα : JsRuntime α)
    (cpathFn : String → Hash → String) (cache : String) (s : Sri)
    (fn : String → Hash → Promise α) (algo : String) (d1 d2 : Hash) (rest : List Hash)
    (hpick : s.pickAlgorithm = some algo) (hds : s.digestsFor algo = d1 :: d2 :: rest) :
    withContentSri jsα cpathFn cache (.sri s) fn
      = (promiseAll ((d1 :: d2 :: rest).map (fun meta =>
          candidateCatch s (withContentSriEntry cpathFn cache meta fn)))).thenE
        (fun results => decideResults jsα results) := by
  simp [withContentSri, ssriParse, hpick, hds]

/-- Synchronous counterpart: the resolver becomes the in-order loop. -/
theorem withContentSriSync_multi {α : Type} (cpathFn : String → Hash → String)
    (cache : String) (s : Sri) (fn : String → Hash → Except Err α) (algo : String)
    (d1 d2 : Hash) (rest : List Hash)
    (hpick : s.pickAlgorithm = some algo) (hds : s.digestsFor algo = d1 :: d2 :: rest) :
    withContentSriSync cpathFn cache (.sri s) fn
      = withContentSriSyncLoop cpathFn cache fn (d1 :: d2 :: rest) none := by
  simp [withContentSriSync, ssriParse, hpick, hds]

/-- Every member bounds a `foldr max 0`. -/
theorem mem_le_foldr_max (l : List Nat) (x : Nat) (hx : x ∈ l) : x ≤ l.foldr max 0 := by
  induction l with
  | nil => cases hx
  | cons a t ih =>
    rcases List.mem_cons.mp hx with h | h
    · subst h; exact le_max_left _ _
    · exact le_trans (ih h) (le_max_right _ _)

/-- Caught candidate promises never reject, so `Promise.all` fulfils with the
caught results in the original order. -/
theorem collectResults_map_catch {α : Type} (s : Sri) (g : Hash → Promise α)
    (l : List Hash) :
    collectResults (l.map (fun m => candidateCatch s (g m)))
      = .ok (l.map (fun m => jsCaught s (g m).result)) := by
  induction l with
  | nil => rfl
  | cons a t ih =>
    rw [List.map_cons, List.map_cons, collectResults, ih]
    rfl

/-- The join time of the caught candidates is the maximum of the candidates'
own settle times. -/
theorem promiseAll_catch_time {α : Type} (s : Sri) (g : Hash → Promise α)
    (l : List Hash) :
    (promiseAll (l.map (fun m => candidateCatch s (g m)))).time
      = (l.map (fun m => (g m).time)).foldr max 0 := by
  simp [promiseAll, List.map_map, Function.comp_def, candidateCatch]

/-- If the first successful settled result is `a`, the first
non-`Error`-instance element of the caught results is the value `a`. -/
theorem find_val_of_find_ok {α : Type} (s : Sri) (rs : List (Except Err α)) (a : α)
    (h : rs.find? isOkE = some (.ok a)) :
    (rs.map (jsCaught s)).find? (fun r => !r.isError) = some (.val a) := by
  induction rs with
  | nil => simp [List.find?] at h
  | cons r t ih =>
    cases r with
    | ok b =>
      rw [List.find?_cons_of_pos _ (by rfl)] at h
      have hb : b = a := Except.ok.inj (Option.some.inj h)
      rw [List.map_cons]
      rw [List.find?_cons_of_pos _ (by rfl)]
      rw [hb]
      rfl
    | error e =>
      rw [List.find?_cons_of_neg _ (by simp [isOkE])] at h
      rw [List.map_cons]
      rw [List.find?_cons_of_neg _ (by simp [jsCaught, JsVal.isError])]
      exact ih h

/-- With no successful settled result, no caught element is a non-`Error`. -/
theorem find_val_none_of_all_err {α : Type} (s : Sri) (es : List Err) :
    ((es.map (fun e => jsCaught s ((.error e : Except Err α)))).find?
        (fun r => !r.isError)) = none := by
  induction es with
  | nil => rfl
  | cons e t ih =>
    rw [List.map_cons]
    rw [List.find?_cons_of_neg _ (by simp [jsCaught, JsVal.isError])]
    exact ih

/-- If some failure among the settled results carries `ENOENT`, the in-order
scan for an `ENOENT` code finds the synthesized aggregate error first. -/
theorem findEnoent_of_exists {α : Type} (jsα : JsRuntime α) (s : Sri) (es : List Err)
    (h : ∃ e ∈ es, e.code = some "ENOENT") :
    findEnoentErr jsα (es.map (fun e => jsCaught s ((.error e : Except Err α))))
      = .ok (some (noMatchingContentError s)) := by
  induction es with
  | nil => simp at h
  | cons e t ih =>
    rw [List.map_cons]
    show findEnoentErr jsα (.err (caughtErr s e) :: _) = _
    by_cases hc : e.code = some "ENOENT"
    · rw [findEnoentErr]
      rw [if_pos]
      · rw [caughtErr, if_pos (by simp [hc])]
      · rw [caughtErr, if_pos (by simp [hc])]
        simp [noMatchingContentError]
    · rcases h with ⟨x, hx, hxc⟩
      rcases List.mem_cons.mp hx with rfl | hxt
      · exact absurd hxc hc
      · rw [findEnoentErr]
        rw [if_neg (by simp [caughtErr, hc])]
        exact ih ⟨x, hxt, hxc⟩

/-- With no `ENOENT` among the failures, the scan for an `ENOENT` code finds
nothing (and in particular never throws: every element is an `Error`). -/
theorem findEnoent_of_none {α : Type} (jsα : JsRuntime α) (s : Sri) (es : List Err)
    (h : ∀ e ∈ es, e.code ≠ some "ENOENT") :
    findEnoentErr jsα (es.map (fun e => jsCaught s ((.error e : Except Err α)))) = .ok none := by
  induction es with
  | nil => rfl
  | cons e t ih =>
    have hc : e.code ≠ some "ENOENT" := h e (List.mem_cons_self e t)
    rw [List.map_cons]
    show findEnoentErr jsα (.err (caughtErr s e) :: _) = _
    rw [findEnoentErr]
    rw [if_neg (by simp [caughtErr, hc])]
    exact ih (fun x hx => h x (List.mem_cons_of_mem e hx))

/-- Decision policy, success half: when every value the runtime can settle
with is truthy, the first successful settled result is returned. -/
theorem decideResults_first_ok {α : Type} (jsα : JsRuntime α)
    (htruthy : ∀ a, jsα.truthy a = true) (s : Sri) (rs : List (Except Err α)) (a : α)
    (h : rs.find? isOkE = some (.ok a)) :
    decideResults jsα (rs.map (jsCaught s)) = .ok a := by
  unfold decideResults
  rw [find_val_of_find_ok s rs a h]
  simp [htruthy]

/-- Decision policy, total-failure half with an `ENOENT` among the failures:
the synthesized aggregate error is thrown. -/
theorem decideResults_all_err_enoent {α : Type} (jsα : JsRuntime α) (s : Sri)
    (es : List Err) (hne : ∃ e ∈ es, e.code = some "ENOENT") :
    decideResults jsα (es.map (fun e => jsCaught s ((.error e : Except Err α))))
      = .error (noMatchingContentError s) := by
  unfold decideResults
  rw [find_val_none_of_all_err]
  unfold decideErrors
  rw [findEnoent_of_exists jsα s es hne]

/-- Decision policy, total-failure half with no `ENOENT` anywhere: the first
failure in the original order is thrown unchanged. -/
theorem decideResults_all_err_generic {α : Type} (jsα : JsRuntime α) (s : Sri)
    (e1 : Err) (es : List Err) (hno : ∀ e ∈ e1 :: es, e.code ≠ some "ENOENT") :
    decideResults jsα ((e1 :: es).map (fun e => jsCaught s ((.error e : Except Err α))))
      = .error e1 := by
  unfold decideResults
  rw [find_val_none_of_all_err]
  unfold decideErrors
  rw [findEnoent_of_none jsα s _ hno]
  rw [List.map_cons]
  rw [List.find?_cons_of_pos _ (by simp [jsCaught, JsVal.isError])]
  have hc : e1.code ≠ some "ENOENT" := hno e1 (List.mem_cons_self e1 es)
  simp [jsCaught, caughtErr, hc]

/-- The candidate loop of the synchronous resolver returns the result of the
first candidate that did not throw. -/
theorem syncLoop_first_ok {α : Type} (cpathFn : String → Hash → String) (cache : String)
    (fn : String → Hash → Except Err α) :
    ∀ (l : List Hash) (lastE : Option Err) (a : α),
      (l.map (fun m => fn (cpathFn cache m) m)).find? isOkE = some (.ok a) →
      withContentSriSyncLoop cpathFn cache fn l lastE = .ok a := by
  intro l
  induction l with
  | nil => intro lastE a h; simp [List.find?] at h
  | cons m t ih =>
    intro lastE a h
    cases hr : fn (cpathFn cache m) m with
    | ok b =>
      rw [List.map_cons, hr, List.find?_cons_of_pos _ (by rfl)] at h
      have hb : b = a := Except.ok.inj (Option.some.inj h)
      simp [withContentSriSyncLoop, withContentSriSyncEntry, hr, hb]
    | error e =>
      rw [List.map_cons, hr, List.find?_cons_of_neg _ (by simp [isOkE])] at h
      simp [withContentSriSyncLoop, withContentSriSyncEntry, hr]
      exact ih (some e) a h

/-- When every candidate throws, the loop reports the error of the last
candidate tried. -/
theorem syncLoop_all_err {α : Type} (cpathFn : String → Hash → String) (cache : String)
    (fn : String → Hash → Except Err α) (errOf : Hash → Err) :
    ∀ (l : List Hash) (m : Hash) (lastE : Option Err),
      (∀ x ∈ m :: l, fn (cpathFn cache x) x = .error (errOf x)) →
      withContentSriSyncLoop cpathFn cache fn (m :: l) lastE
        = .error (errOf (l.getLastD m)) := by
  intro l
  induction l with
  | nil =>
    intro m lastE h
    have hm := h m (List.mem_cons_self m [])
    simp [withContentSriSyncLoop, withContentSriSyncEntry, hm, List.getLastD]
  | cons m2 t ih =>
    intro m lastE h
    have hm := h m (List.mem_cons_self _ _)
    have hrec := ih m2 (some (errOf m)) (fun x hx => h x (List.mem_cons_of_mem m hx))
    rw [List.getLastD_cons]
    rw [withContentSriSyncLoop]
    have hm2 : withContentSriSyncEntry cpathFn cache m fn = Except.error (errOf m) := hm
    rw [hm2]
    exact hrec

/-- The settled result of the multi-candidate resolver is the decision policy
applied to the caught per-candidate results, in the original entry order. -/
theorem withContentSri_multi_result {α : Type} (jsα : JsRuntime α)
    (cpathFn : String → Hash → String) (cache : String) (s : Sri)
    (fn : String → Hash → Promise α) (algo : String) (d1 d2 : Hash) (rest : List Hash)
    (hpick : s.pickAlgorithm = some algo) (hds : s.digestsFor algo = d1 :: d2 :: rest) :
    (withContentSri jsα cpathFn cache (.sri s) fn).result
      = decideResults jsα ((d1 :: d2 :: rest).map
          (fun m => jsCaught s (fn (cpathFn cache m) m).result)) := by
  rw [withContentSri_multi jsα cpathFn cache s fn algo d1 d2 rest hpick hds]
  have hc := collectResults_map_catch s (fun m => withContentSriEntry cpathFn cache m fn)
    (d1 :: d2 :: rest)
  show (collectResults _).bind _ = _
  rw [hc]
  rfl

/-- The settle time of the multi-candidate resolver is the join (maximum) of
every candidate's own settle time. -/
theorem withContentSri_multi_time {α : Type} (jsα : JsRuntime α)
    (cpathFn : String → Hash → String) (cache : String) (s : Sri)
    (fn : String → Hash → Promise α) (algo : String) (d1 d2 : Hash) (rest : List Hash)
    (hpick : s.pickAlgorithm = some algo) (hds : s.digestsFor algo = d1 :: d2 :: rest) :
    (withContentSri jsα cpathFn cache (.sri s) fn).time
      = ((d1 :: d2 :: rest).map (fun m => (fn (cpathFn cache m) m).time)).foldr max 0 := by
  rw [withContentSri_multi jsα cpathFn cache s fn algo d1 d2 rest hpick hds]
  exact promiseAll_catch_time s (fun m => withContentSriEntry cpathFn cache m fn) _

/-! Claim C1. -/

/-- C1 counterexample: the claim asserts that whenever at least one candidate's
access function succeeded, the resolver returns the earliest success.  With
the copy-style access function — whose success value is JS `undefined`, hence
falsy — both candidates of `cSri2` succeed, yet the decision code skips the
falsy success and then faults reading `.code` off `undefined`, so the resolver
rejects with a `TypeError` instead of returning the success. -/
theorem c1_falsy_success_counterexample :
    (withContentSri undefinedRuntime cPathFn "cache" (.sri cSri2)
        (fun _ _ => ({ time := 1, result := .ok () } : Promise Unit))).result
      = .error codeOfUndefinedError
    ∧ (Except.error codeOfUndefinedError ≠ (.ok () : Except Err Unit)) := by
  exact ⟨by decide, by decide⟩

/-- C1 (amended): for a descriptor whose selected algorithm has more than one
digest entry, the non-blocking resolver launches every candidate, settles only
at the join of all candidate settle times (it never short-circuits on the
first settled outcome), and — provided the access function's success values
are truthy JS values, as those of the buffered-read, stream and existence
access functions are — if at least one candidate succeeded it returns the
success of the earliest candidate in the descriptor's original entry order,
independent of completion timing (the result depends only on the settled
outcomes, not on the settle times). -/
theorem c1_multi_candidate_join {α : Type} (jsα : JsRuntime α)
    (cpathFn : String → Hash → String) (cache : String) (s : Sri)
    (fn : String → Hash → Promise α) (algo : String) (d1 d2 : Hash) (rest : List Hash)
    (hpick : s.pickAlgorithm = some algo) (hds : s.digestsFor algo = d1 :: d2 :: rest)
    (htruthy : ∀ a, jsα.truthy a = true) :
    ((withContentSri jsα cpathFn cache (.sri s) fn).time
        = ((d1 :: d2 :: rest).map (fun m => (fn (cpathFn cache m) m).time)).foldr max 0)
    ∧ (∀ m ∈ d1 :: d2 :: rest,
        (fn (cpathFn cache m) m).time ≤ (withContentSri jsα cpathFn cache (.sri s) fn).time)
    ∧ (∀ a : α,
        ((d1 :: d2 :: rest).map (fun m => (fn (cpathFn cache m) m).result)).find? isOkE
            = some (.ok a) →
        (withContentSri jsα cpathFn cache (.sri s) fn).result = .ok a)
    ∧ (∀ fn2 : String → Hash → Promise α,
        (∀ q h, (fn2 q h).result = (fn q h).result) →
        (withContentSri jsα cpathFn cache (.sri s) fn2).result
          = (withContentSri jsα cpathFn cache (.sri s) fn).result) := by
  have ht := withContentSri_multi_time jsα cpathFn cache s fn algo d1 d2 rest hpick hds
  have hr := withContentSri_multi_result jsα cpathFn cache s fn algo d1 d2 rest hpick hds
  refine ⟨ht, ?_, ?_, ?_⟩
  · intro m hm
    rw [ht]
    exact mem_le_foldr_max _ _ (List.mem_map_of_mem (fun m => (fn (cpathFn cache m) m).time) hm)
  · intro a ha
    have hd := decideResults_first_ok jsα htruthy s
      ((d1 :: d2 :: rest).map (fun m => (fn (cpathFn cache m) m).result)) a ha
    rw [List.map_map] at hd
    rw [hr]
    exact hd
  · intro fn2 hagree
    have hr2 := withContentSri_multi_result jsα cpathFn cache s fn2 algo d1 d2 rest hpick hds
    rw [hr, hr2]
    have : (fun m => jsCaught s (fn2 (cpathFn cache m) m).result)
        = (fun m => jsCaught s (fn (cpathFn cache m) m).result) := by
      funext m
      rw [hagree]
    rw [this]

/-- C1 witness: with truthy (buffer) success values, the first candidate's
slow success (settling at time 9) beats the second candidate's fast success
(settling at time 1); the resolver settles at the join time 9, not at the
first settlement. -/
theorem c1_multi_candidate_join_witness :
    cSri2.pickAlgorithm = some "sha512"
    ∧ cSri2.digestsFor "sha512" = [cHashA, cHashB]
    ∧ (withContentSri (objectRuntime Bytes) cPathFn "cache" (.sri cSri2) cFnSlowFirst).time = 9
    ∧ (withContentSri (objectRuntime Bytes) cPathFn "cache" (.sri cSri2) cFnSlowFirst).result
        = .ok [1] := by
  have big := c1_multi_candidate_join (objectRuntime Bytes) cPathFn "cache" cSri2 cFnSlowFirst
    "sha512" cHashA cHashB [] (by decide) (by decide) (fun a => rfl)
  refine ⟨by decide, by decide, ?_, ?_⟩
  · rw [big.1]
    decide
  · exact big.2.2.1 [1] (by decide)

/-! Claim C2. -/

/-- C2: in the non-blocking multi-candidate case with every candidate failed —
the failures being given pointwise by `errOf` — the resolver rejects with the
single synthesized aggregate `ENOENT` error (message
`No matching content found for <descriptor>`) as soon as at least one failure
carries `ENOENT`; with no `ENOENT` anywhere it rejects with the first failure
in the original candidate order (all failures then being non-`ENOENT`). -/
theorem c2_all_failed_policy {α : Type} (jsα : JsRuntime α)
    (cpathFn : String → Hash → String) (cache : String) (s : Sri)
    (fn : String → Hash → Promise α) (errOf : Hash → Err) (algo : String)
    (d1 d2 : Hash) (rest : List Hash)
    (hpick : s.pickAlgorithm = some algo) (hds : s.digestsFor algo = d1 :: d2 :: rest)
    (herr : ∀ m ∈ d1 :: d2 :: rest, (fn (cpathFn cache m) m).result = .error (errOf m)) :
    ((∃ m ∈ d1 :: d2 :: rest, (errOf m).code = some "ENOENT") →
      (withContentSri jsα cpathFn cache (.sri s) fn).result
        = .error (noMatchingContentError s))
    ∧ ((∀ m ∈ d1 :: d2 :: rest, (errOf m).code ≠ some "ENOENT") →
      (withContentSri jsα cpathFn cache (.sri s) fn).result = .error (errOf d1)) := by
  have hr := withContentSri_multi_result jsα cpathFn cache s fn algo d1 d2 rest hpick hds
  have hmap : ((d1 :: d2 :: rest).map (fun m => jsCaught s (fn (cpathFn cache m) m).result))
      = ((d1 :: d2 :: rest).map errOf).map
          (fun e => jsCaught s ((.error e : Except Err α))) := by
    rw [List.map_map]
    exact List.map_congr_left (fun m hm => by rw [herr m hm]; rfl)
  rw [hmap] at hr
  constructor
  · rintro ⟨m, hm, hc⟩
    rw [hr]
    exact decideResults_all_err_enoent jsα s _
      ⟨errOf m, List.mem_map_of_mem errOf hm, hc⟩
  · intro hno
    rw [hr]
    rw [List.map_cons]
    refine decideResults_all_err_generic jsα s (errOf d1) ((d2 :: rest).map errOf) ?_
    intro e he
    rcases List.mem_cons.mp he with rfl | he2
    · exact hno d1 (List.mem_cons_self d1 _)
    · rcases List.mem_map.mp he2 with ⟨m, hm, rfl⟩
      exact hno m (List.mem_cons_of_mem d1 hm)

/-- C2 witness: with the first candidate failing fast with `EACCES` and the
second failing later with `ENOENT`, the resolver rejects with the single
aggregate `ENOENT` error, not with the earlier generic failure. -/
theorem c2_all_failed_policy_witness :
    cSri2.pickAlgorithm = some "sha512"
    ∧ (cFnMixedFail (cPathFn "cache" cHashA) cHashA).result = .error eaccesErr
    ∧ (cFnMixedFail (cPathFn "cache" cHashB) cHashB).result
        = .error (enoentError "cache/content/sha512/bbb")
    ∧ (withContentSri (objectRuntime Bytes) cPathFn "cache" (.sri cSri2) cFnMixedFail).result
        = .error (noMatchingContentError cSri2) := by
  have big := c2_all_failed_policy (objectRuntime Bytes) cPathFn "cache" cSri2 cFnMixedFail
    (fun m => if m = cHashA then eaccesErr else enoentError "cache/content/sha512/bbb")
    "sha512" cHashA cHashB [] (by decide) (by decide) (by decide)
  exact ⟨by decide, by decide, by decide, big.1 ⟨cHashB, by decide, by decide⟩⟩

/-! Claim C4. -/

/-- C4: for a descriptor whose selected algorithm has more than one digest
entry, the blocking resolver tries candidates strictly in the descriptor's
entry order: it returns the result of the first candidate whose access
function did not throw, and when every candidate throws it throws exactly the
error of the last candidate tried. -/
theorem c4_sync_first_success_last_error {α : Type} (cpathFn : String → Hash → String)
    (cache : String) (s : Sri) (fn : String → Hash → Except Err α) (algo : String)
    (d1 d2 : Hash) (rest : List Hash)
    (hpick : s.pickAlgorithm = some algo) (hds : s.digestsFor algo = d1 :: d2 :: rest) :
    (∀ a : α,
      ((d1 :: d2 :: rest).map (fun m => fn (cpathFn cache m) m)).find? isOkE
          = some (.ok a) →
      withContentSriSync cpathFn cache (.sri s) fn = .ok a)
    ∧ (∀ errOf : Hash → Err,
      (∀ m ∈ d1 :: d2 :: rest, fn (cpathFn cache m) m = .error (errOf m)) →
      withContentSriSync cpathFn cache (.sri s) fn
        = .error (errOf ((d2 :: rest).getLastD d1))) := by
  rw [withContentSriSync_multi cpathFn cache s fn algo d1 d2 rest hpick hds]
  constructor
  · intro a ha
    exact syncLoop_first_ok cpathFn cache fn (d1 :: d2 :: rest) none a ha
  · intro errOf herr
    exact syncLoop_all_err cpathFn cache fn errOf (d2 :: rest) d1 none herr

/-- C4 witness: both candidates throw; the blocking resolver reports the last
candidate's error (the one tagged with the second content path), not the
first. -/
theorem c4_sync_first_success_last_error_witness :
    cSri2.pickAlgorithm = some "sha512"
    ∧ cFnSyncFail (cPathFn "cache" cHashA) cHashA
        = .error { message := "boom cache/content/sha512/aaa", code := some "EACCES" }
    ∧ withContentSriSync cPathFn "cache" (.sri cSri2) cFnSyncFail
        = .error { message := "boom cache/content/sha512/bbb", code := some "EACCES" } := by
  have big := c4_sync_first_success_last_error cPathFn "cache" cSri2 cFnSyncFail
    "sha512" cHashA cHashB [] (by decide) (by decide)
  refine ⟨by decide, by decide, ?_⟩
  rw [big.2 cBoomErr (by decide)]
  decide

/-! Claim C3. -/

/-- C3 counterexample: the claim asserts that the existence check propagates
every failure whose code is neither ENOENT nor EPERM unchanged to the caller.
With an access failure of code `EACCES` on a non-Windows platform the check
does not reject: its catch handler falls off the end and the call fulfils with
`undefined`. -/
theorem c3_swallowed_code_counterexample :
    (hasContent cPathFn (fun _ => { time := 0, result := .error eaccesErr }) "linux" "cache"
        (some (.hash cHashA))).result = .ok .undef
    ∧ ((.ok .undef : Except Err HasContentResult) ≠ .error eaccesErr) := by
  exact ⟨by decide, by decide⟩

/-- C3 (amended): for every store root and single-candidate descriptor whose
stat fails, the blocking and non-blocking existence checks agree and classify
the failure as follows: an `ENOENT` failure becomes the value false, an
`EPERM` failure becomes false on the Windows platform and is re-raised on
every other platform, and a failure with any other code is swallowed — the
check yields the JS `undefined` value instead of propagating the error. -/
theorem c3_error_classification (cpathFn : String → Hash → String)
    (lstatF : String → Promise Stat) (lstatSyncF : String → Except Err Stat)
    (platform cache : String) (input : IntegrityInput) (s : Sri) (algo : String)
    (d : Hash) (err : Err)
    (hparse : ssriParse input = .ok s) (hpick : s.pickAlgorithm = some algo)
    (hds : s.digestsFor algo = [d])
    (hstat : (lstatF (cpathFn cache d)).result = .error err)
    (hstatSync : lstatSyncF (cpathFn cache d) = .error err) :
    ((hasContent cpathFn lstatF platform cache (some input)).result
        = hasContentSync cpathFn lstatSyncF platform cache (some input))
    ∧ (err.code = some "ENOENT" →
        (hasContent cpathFn lstatF platform cache (some input)).result = .ok .notFound)
    ∧ (err.code = some "EPERM" →
        (hasContent cpathFn lstatF platform cache (some input)).result
          = (if platform ≠ "win32" then .error err else .ok .notFound))
    ∧ (err.code ≠ some "ENOENT" → err.code ≠ some "EPERM" →
        (hasContent cpathFn lstatF platform cache (some input)).result = .ok .undef) := by
  have hmain : (hasContent cpathFn lstatF platform cache (some input)).result
      = (if err.code == some "ENOENT" then (.ok .notFound : Except Err HasContentResult)
         else if err.code == some "EPERM" then
           (if platform ≠ "win32" then .error err else .ok .notFound)
         else .ok .undef) := by
    rw [hasContent]
    rw [withContentSri_single (objectRuntime HasContentResult) cpathFn cache input _ s algo d
      hparse hpick hds]
    simp [Promise.catchE, Promise.thenE, Except.bind, hstat]
  have hsync : hasContentSync cpathFn lstatSyncF platform cache (some input)
      = (if err.code == some "ENOENT" then (.ok .notFound : Except Err HasContentResult)
         else if err.code == some "EPERM" then
           (if platform ≠ "win32" then .error err else .ok .notFound)
         else .ok .undef) := by
    rw [hasContentSync]
    rw [withContentSriSync_single cpathFn cache input _ s algo d hparse hpick hds]
    simp [hstatSync]
  refine ⟨by rw [hmain, hsync], ?_, ?_, ?_⟩
  · intro hc
    rw [hmain]
    simp [hc]
  · intro hc
    rw [hmain]
    simp [hc]
  · intro h1 h2
    rw [hmain]
    simp [beq_iff_eq, h1, h2]

/-- C3 witness: a concrete `EACCES` stat failure on Linux — both forms agree
and fulfil with `undefined`, which is not the propagated error. -/
theorem c3_error_classification_witness :
    ssriParse (.hash cHashA) = .ok { entries := [("sha512", [cHashA])] }
    ∧ (hasContent cPathFn (fun _ => { time := 0, result := .error eaccesErr }) "linux" "cache"
        (some (.hash cHashA))).result
      = hasContentSync cPathFn (fun _ => .error eaccesErr) "linux" "cache"
        (some (.hash cHashA))
    ∧ (hasContent cPathFn (fun _ => { time := 0, result := .error eaccesErr }) "linux" "cache"
        (some (.hash cHashA))).result = .ok .undef := by
  have big := c3_error_classification cPathFn
    (fun _ => { time := 0, result := .error eaccesErr }) (fun _ => .error eaccesErr)
    "linux" "cache" (.hash cHashA) { entries := [("sha512", [cHashA])] } "sha512" cHashA
    eaccesErr (by decide) (by decide) (by decide) (by decide) (by decide)
  exact ⟨by decide, big.1, big.2.2.2 (by decide) (by decide)⟩

/-! Claim C5. -/

/-- C5: for buffered reads (blocking and non-blocking alike) with a numeric
`size` option differing from the number of bytes actually read, the operation
fails with the `EBADSIZE` error carrying the expected and found lengths.  The
conclusion holds for an arbitrary `checkData` collaborator — in particular for
one that would also fail the digest check — which is exactly the sense in
which the size check precedes any cryptographic verification. -/
theorem c5_size_check_precedes (cpathFn : String → Hash → String)
    (readFileF : String → Promise Bytes) (readFileSyncF : String → Except Err Bytes)
    (checkData : Bytes → Hash → Bool) (cache : String) (input : IntegrityInput)
    (s : Sri) (algo : String) (d : Hash) (data : Bytes) (n : Int)
    (hparse : ssriParse input = .ok s) (hpick : s.pickAlgorithm = some algo)
    (hds : s.digestsFor algo = [d])
    (hread : (readFileF (cpathFn cache d)).result = .ok data)
    (hreadSync : readFileSyncF (cpathFn cache d) = .ok data)
    (hn : n ≠ (data.length : Int)) :
    ((read cpathFn readFileF checkData cache input { size := .num n }).result
        = .error (sizeError n (data.length : Int)))
    ∧ (readSync cpathFn readFileSyncF checkData cache input { size := .num n }
        = .error (sizeError n (data.length : Int)))
    ∧ (sizeError n (data.length : Int)).code = some "EBADSIZE"
    ∧ (sizeError n (data.length : Int)).expected = some n
    ∧ (sizeError n (data.length : Int)).found = some (data.length : Int) := by
  refine ⟨?_, ?_, rfl, rfl, rfl⟩
  · unfold read
    rw [withContentSri_single (objectRuntime Bytes) cpathFn cache input _ s algo d
      hparse hpick hds]
    simp [Promise.thenE, Except.bind, hread, readValidate, hn]
  · unfold readSync
    rw [withContentSriSync_single cpathFn cache input _ s algo d hparse hpick hds]
    simp [Except.bind, hreadSync, readSyncValidate, hn]

/-- C5 witness: expected 5 bytes, found 2; both forms fail with the same
`EBADSIZE` error even though the digest check would also have failed. -/
theorem c5_size_check_precedes_witness :
    (5 : Int) ≠ (([7, 8] : Bytes).length : Int)
    ∧ (read cPathFn (fun _ => { time := 0, result := .ok [7, 8] }) (fun _ _ => false) "cache"
        (.hash cHashA) { size := .num 5 }).result = .error (sizeError 5 2)
    ∧ readSync cPathFn (fun _ => .ok [7, 8]) (fun _ _ => false) "cache"
        (.hash cHashA) { size := .num 5 } = .error (sizeError 5 2) := by
  have big := c5_size_check_precedes cPathFn
    (fun _ => { time := 0, result := .ok [7, 8] }) (fun _ => .ok [7, 8]) (fun _ _ => false)
    "cache" (.hash cHashA) { entries := [("sha512", [cHashA])] } "sha512" cHashA [7, 8] 5
    (by decide) (by decide) (by decide) (by decide) (by decide) (by decide)
  exact ⟨by decide, big.1, big.2.1⟩

/-! Claim C6. -/

/-- C6: for buffered reads (blocking and non-blocking alike) where the bytes
pass the size check (no numeric `size` mismatch) but fail the digest check,
the operation fails with the `EINTEGRITY` error carrying the resolved digest
entry and the resolved content path. -/
theorem c6_integrity_failure (cpathFn : String → Hash → String)
    (readFileF : String → Promise Bytes) (readFileSyncF : String → Except Err Bytes)
    (checkData : Bytes → Hash → Bool) (cache : String) (input : IntegrityInput)
    (s : Sri) (algo : String) (d : Hash) (data : Bytes) (opts : ReadOpts)
    (hparse : ssriParse input = .ok s) (hpick : s.pickAlgorithm = some algo)
    (hds : s.digestsFor algo = [d])
    (hread : (readFileF (cpathFn cache d)).result = .ok data)
    (hreadSync : readFileSyncF (cpathFn cache d) = .ok data)
    (hsz : ∀ k : Int, opts.size = .num k → k = (data.length : Int))
    (hchk : checkData data d = false) :
    ((read cpathFn readFileF checkData cache input opts).result
        = .error (integrityError d (cpathFn cache d)))
    ∧ (readSync cpathFn readFileSyncF checkData cache input opts
        = .error (integrityError d (cpathFn cache d)))
    ∧ (integrityError d (cpathFn cache d)).code = some "EINTEGRITY"
    ∧ (integrityError d (cpathFn cache d)).sri = some d
    ∧ (integrityError d (cpathFn cache d)).path = some (cpathFn cache d) := by
  have hval : readValidate checkData opts (cpathFn cache d) d data
      = .error (integrityError d (cpathFn cache d)) := by
    unfold readValidate
    cases hso : opts.size with
    | num k =>
      have hk : k = (data.length : Int) := hsz k hso
      simp [hk, hchk]
    | str st => simp [hchk]
    | boolv b => simp [hchk]
    | nullv => simp [hchk]
    | undef => simp [hchk]
  have hvalSync : readSyncValidate checkData opts (cpathFn cache d) d data
      = .error (integrityError d (cpathFn cache d)) := by
    unfold readSyncValidate
    cases hso : opts.size with
    | num k =>
      have hk : k = (data.length : Int) := hsz k hso
      simp [hk, hchk]
    | str st => simp [hchk]
    | boolv b => simp [hchk]
    | nullv => simp [hchk]
    | undef => simp [hchk]
  refine ⟨?_, ?_, rfl, rfl, rfl⟩
  · unfold read
    rw [withContentSri_single (objectRuntime Bytes) cpathFn cache input _ s algo d
      hparse hpick hds]
    simp [Promise.thenE, Except.bind, hread, hval]
  · unfold readSync
    rw [withContentSriSync_single cpathFn cache input _ s algo d hparse hpick hds]
    simp [Except.bind, hreadSync, hvalSync]

/-- C6 witness: no size option is supplied, the digest check rejects the
bytes, and both forms fail with the `EINTEGRITY` error naming the entry and
its mapped path. -/
theorem c6_integrity_failure_witness :
    ((fun (_ : Bytes) (_ : Hash) => false) [7, 8] cHashA) = false
    ∧ (read cPathFn (fun _ => { time := 0, result := .ok [7, 8] }) (fun _ _ => false) "cache"
        (.hash cHashA) {}).result
      = .error (integrityError cHashA "cache/content/sha512/aaa")
    ∧ readSync cPathFn (fun _ => .ok [7, 8]) (fun _ _ => false) "cache" (.hash cHashA) {}
      = .error (integrityError cHashA "cache/content/sha512/aaa") := by
  have big := c6_integrity_failure cPathFn
    (fun _ => { time := 0, result := .ok [7, 8] }) (fun _ => .ok [7, 8]) (fun _ _ => false)
    "cache" (.hash cHashA) { entries := [("sha512", [cHashA])] } "sha512" cHashA [7, 8] {}
    (by decide) (by decide) (by decide) (by decide) (by decide)
    (fun k hk => by cases hk) (by decide)
  refine ⟨by decide, ?_, ?_⟩
  · have := big.1
    rw [show cPathFn "cache" cHashA = "cache/content/sha512/aaa" from rfl] at this
    exact this
  · have := big.2.1
    rw [show cPathFn "cache" cHashA = "cache/content/sha512/aaa" from rfl] at this
    exact this

/-! Claim C7. -/

/-- C7: the streaming read returns its stream handle unconditionally (the
function is total: the first component of its value is the synchronously
created `PassThrough`), and its event channel never rejects — for every input
there is a settled event, a parse failure (an input the parse collaborator
throws on), a resolution/stat failure and a pipe (verification) failure each
surface as an `error` event carrying that very error, and the success path
finishes normally. -/
theorem c7_stream_errors_as_events (cpathFn : String → Hash → String)
    (lstatF : String → Promise Stat) (pipeF : String → Hash → JsValue → Promise Unit)
    (cache : String) (opts : ReadOpts) :
    (∀ input : IntegrityInput, ∃ ev : StreamEvent,
      (readStream cpathFn lstatF pipeF cache input opts).2.result = .ok ev)
    ∧ (∀ e : Err,
      (readStream cpathFn lstatF pipeF cache (.bad e) opts).2.result = .ok (.errored e))
    ∧ (∀ (input : IntegrityInput) (s : Sri) (algo : String) (d : Hash) (e : Err),
      ssriParse input = .ok s → s.pickAlgorithm = some algo → s.digestsFor algo = [d] →
      (lstatF (cpathFn cache d)).result = .error e →
      (readStream cpathFn lstatF pipeF cache input opts).2.result = .ok (.errored e))
    ∧ (∀ (input : IntegrityInput) (s : Sri) (algo : String) (d : Hash) (st : Stat) (e : Err),
      ssriParse input = .ok s → s.pickAlgorithm = some algo → s.digestsFor algo = [d] →
      (lstatF (cpathFn cache d)).result = .ok st →
      (pipeF (cpathFn cache d) d opts.size).result = .error e →
      (readStream cpathFn lstatF pipeF cache input opts).2.result = .ok (.errored e))
    ∧ (∀ (input : IntegrityInput) (s : Sri) (algo : String) (d : Hash) (st : Stat),
      ssriParse input = .ok s → s.pickAlgorithm = some algo → s.digestsFor algo = [d] →
      (lstatF (cpathFn cache d)).result = .ok st →
      (pipeF (cpathFn cache d) d opts.size).result = .ok () →
      (readStream cpathFn lstatF pipeF cache input opts).2.result = .ok .finished) := by
  refine ⟨?_, ?_, ?_, ?_, ?_⟩
  · intro input
    exact ⟨_, rfl⟩
  · intro e
    rfl
  · intro input s algo d e hparse hpick hds hstat
    unfold readStream
    rw [withContentSri_single (objectRuntime ResolvedContent) cpathFn cache input _ s algo d
      hparse hpick hds]
    simp [Promise.thenE, Promise.bindP, Except.bind, hstat]
  · intro input s algo d st e hparse hpick hds hstat hpipe
    unfold readStream
    rw [withContentSri_single (objectRuntime ResolvedContent) cpathFn cache input _ s algo d
      hparse hpick hds]
    simp [Promise.thenE, Promise.bindP, Except.bind, hstat, hpipe]
  · intro input s algo d st hparse hpick hds hstat hpipe
    unfold readStream
    rw [withContentSri_single (objectRuntime ResolvedContent) cpathFn cache input _ s algo d
      hparse hpick hds]
    simp [Promise.thenE, Promise.bindP, Except.bind, hstat, hpipe]

/-- C7 witness: a failing stat surfaces as an `error` event on the returned
stream, and so does a parse failure; neither is a synchronous throw. -/
theorem c7_stream_errors_as_events_witness :
    (readStream cPathFn (fun _ => { time := 0, result := .error eaccesErr })
        (fun _ _ _ => { time := 0, result := .ok () }) "cache" (.hash cHashA) {}).2.result
      = .ok (.errored eaccesErr)
    ∧ (readStream cPathFn (fun _ => { time := 0, result := .error eaccesErr })
        (fun _ _ _ => { time := 0, result := .ok () }) "cache" (.bad epermErr) {}).2.result
      = .ok (.errored epermErr) := by
  have big := c7_stream_errors_as_events cPathFn
    (fun _ => { time := 0, result := .error eaccesErr })
    (fun _ _ _ => { time := 0, result := .ok () }) "cache" {}
  exact ⟨big.2.2.1 (.hash cHashA) { entries := [("sha512", [cHashA])] } "sha512" cHashA
      eaccesErr (by decide) (by decide) (by decide) (by decide),
    big.2.1 epermErr⟩

/-! Claim C8. -/

/-- C8: the blocking and non-blocking buffered reads apply identical
validation to the bytes they read: the two validation bodies are equal, both
fail with an `EBADSIZE` error exactly when a numeric size option differs from
the byte length, both fail with an `EINTEGRITY` error exactly when the size
check passes and the digest check fails, and both return exactly the bytes
read otherwise. -/
theorem c8_validation_equivalence (checkData : Bytes → Hash → Bool) (opts : ReadOpts)
    (cpath : String) (d : Hash) (data : Bytes) :
    (readValidate checkData opts cpath d data = readSyncValidate checkData opts cpath d data)
    ∧ ((∃ e, readValidate checkData opts cpath d data = .error e ∧ e.code = some "EBADSIZE")
        ↔ (∃ n : Int, opts.size = .num n ∧ n ≠ (data.length : Int)))
    ∧ ((∃ e, readValidate checkData opts cpath d data = .error e ∧ e.code = some "EINTEGRITY")
        ↔ (checkData data d = false
            ∧ ¬ ∃ n : Int, opts.size = .num n ∧ n ≠ (data.length : Int)))
    ∧ (readValidate checkData opts cpath d data = .ok data
        ↔ (checkData data d = true
            ∧ ¬ ∃ n : Int, opts.size = .num n ∧ n ≠ (data.length : Int))) := by
  have hval : readValidate checkData opts cpath d data
      = readSyncValidate checkData opts cpath d data := rfl
  have hnum : ∀ k : Int, opts.size = .num k →
      readValidate checkData opts cpath d data
        = (if k ≠ (data.length : Int) then .error (sizeError k (data.length : Int))
           else if checkData data d then .ok data else .error (integrityError d cpath)) := by
    intro k hso
    unfold readValidate
    rw [hso]
  have hnotnum : opts.size.isNumber = false →
      readValidate checkData opts cpath d data
        = (if checkData data d then .ok data else .error (integrityError d cpath)) := by
    intro hns
    unfold readValidate
    cases hso : opts.size <;> simp_all [JsValue.isNumber]
  have trich : (∃ n : Int, opts.size = .num n ∧ n ≠ (data.length : Int))
      ∨ opts.size.isNumber = false ∨ opts.size = .num (data.length : Int) := by
    cases hso : opts.size with
    | num k =>
      by_cases hk : k = (data.length : Int)
      · exact Or.inr (Or.inr (by rw [hk]))
      · exact Or.inl ⟨k, rfl, hk⟩
    | str st => exact Or.inr (Or.inl rfl)
    | boolv b => exact Or.inr (Or.inl rfl)
    | nullv => exact Or.inr (Or.inl rfl)
    | undef => exact Or.inr (Or.inl rfl)
  rcases trich with ⟨n, hso, hn⟩ | hns | hso
  · have hres : readValidate checkData opts cpath d data
        = .error (sizeError n (data.length : Int)) := by
      rw [hnum n hso, if_pos hn]
    refine ⟨hval, ?_, ?_, ?_⟩
    · exact iff_of_true ⟨sizeError n (data.length : Int), hres, rfl⟩ ⟨n, hso, hn⟩
    · refine iff_of_false ?_ ?_
      · rintro ⟨e, he, hcode⟩
        rw [hres] at he
        have : sizeError n (data.length : Int) = e := Except.error.inj he
        rw [← this] at hcode
        simp [sizeError] at hcode
      · rintro ⟨-, hnot⟩
        exact hnot ⟨n, hso, hn⟩
    · refine iff_of_false ?_ ?_
      · intro he
        rw [hres] at he
        cases he
      · rintro ⟨-, hnot⟩
        exact hnot ⟨n, hso, hn⟩
  · have hnotex : ¬ ∃ n : Int, opts.size = .num n ∧ n ≠ (data.length : Int) := by
      rintro ⟨n, hso, -⟩
      rw [hso] at hns
      simp [JsValue.isNumber] at hns
    have hres := hnotnum hns
    by_cases hc : checkData data d
    · rw [if_pos hc] at hres
      refine ⟨hval, ?_, ?_, ?_⟩
      · refine iff_of_false ?_ (fun h => hnotex h)
        rintro ⟨e, he, -⟩
        rw [hres] at he
        cases he
      · refine iff_of_false ?_ ?_
        · rintro ⟨e, he, -⟩
          rw [hres] at he
          cases he
        · rintro ⟨hcf, -⟩
          rw [hc] at hcf
          cases hcf
      · exact iff_of_true hres ⟨hc, hnotex⟩
    · rw [if_neg hc] at hres
      have hcf : checkData data d = false := by
        cases hcc : checkData data d
        · rfl
        · exact absurd hcc hc
      refine ⟨hval, ?_, ?_, ?_⟩
      · refine iff_of_false ?_ (fun h => hnotex h)
        rintro ⟨e, he, hcode⟩
        rw [hres] at he
        have : integrityError d cpath = e := Except.error.inj he
        rw [← this] at hcode
        simp [integrityError] at hcode
      · exact iff_of_true ⟨integrityError d cpath, hres, rfl⟩ ⟨hcf, hnotex⟩
      · refine iff_of_false ?_ ?_
        · intro he
          rw [hres] at he
          cases he
        · rintro ⟨hct, -⟩
          rw [hct] at hcf
          cases hcf
  · have hnotex : ¬ ∃ n : Int, opts.size = .num n ∧ n ≠ (data.length : Int) := by
      rintro ⟨n, hso2, hn⟩
      rw [hso] at hso2
      have : (data.length : Int) = n := JsValue.num.inj hso2
      exact hn this.symm
    have hres : readValidate checkData opts cpath d data
        = (if checkData data d then .ok data else .error (integrityError d cpath)) := by
      rw [hnum (data.length : Int) hso]
      simp
    by_cases hc : checkData data d
    · rw [if_pos hc] at hres
      refine ⟨hval, ?_, ?_, ?_⟩
      · refine iff_of_false ?_ (fun h => hnotex h)
        rintro ⟨e, he, -⟩
        rw [hres] at he
        cases he
      · refine iff_of_false ?_ ?_
        · rintro ⟨e, he, -⟩
          rw [hres] at he
          cases he
        · rintro ⟨hcf, -⟩
          rw [hc] at hcf
          cases hcf
      · exact iff_of_true hres ⟨hc, hnotex⟩
    · rw [if_neg hc] at hres
      have hcf : checkData data d = false := by
        cases hcc : checkData data d
        · rfl
        · exact absurd hcc hc
      refine ⟨hval, ?_, ?_, ?_⟩
      · refine iff_of_false ?_ (fun h => hnotex h)
        rintro ⟨e, he, hcode⟩
        rw [hres] at he
        have : integrityError d cpath = e := Except.error.inj he
        rw [← this] at hcode
        simp [integrityError] at hcode
      · exact iff_of_true ⟨integrityError d cpath, hres, rfl⟩ ⟨hcf, hnotex⟩
      · refine iff_of_false ?_ ?_
        · intro he
          rw [hres] at he
          cases he
        · rintro ⟨hct, -⟩
          rw [hct] at hcf
          cases hcf

/-! Claim C9. -/

/-- C9: the copy operation (blocking and non-blocking) resolves the descriptor
to a content path and hands exactly that path and the destination to the raw
file-copy collaborator — its outcome is the collaborator's outcome, for an
arbitrary collaborator, with no integrity or size verification interposed (the
operation is also insensitive to the `size` option); and the copy entry points
are exported exactly when the runtime's native `fs.copyFile` exists. -/
theorem c9_copy_direct (cpathFn : String → Hash → String)
    (copyFileF : String → String → Promise Unit)
    (copyFileSyncF : String → String → Except Err Unit) (cache : String)
    (input : IntegrityInput) (dest : String) (opts : ReadOpts) (s : Sri) (algo : String)
    (d : Hash)
    (hparse : ssriParse input = .ok s) (hpick : s.pickAlgorithm = some algo)
    (hds : s.digestsFor algo = [d]) :
    ((copy cpathFn copyFileF cache input dest opts).result
        = (copyFileF (cpathFn cache d) dest).result)
    ∧ (copySync cpathFn copyFileSyncF cache input dest opts
        = copyFileSyncF (cpathFn cache d) dest)
    ∧ (∀ opts2 : ReadOpts, copy cpathFn copyFileF cache input dest opts2
        = copy cpathFn copyFileF cache input dest opts)
    ∧ (∀ b : Bool, ("copy" ∈ moduleExports b ↔ b = true)
        ∧ ("copy.sync" ∈ moduleExports b ↔ b = true)) := by
  refine ⟨?_, ?_, ?_, ?_⟩
  · unfold copy
    rw [withContentSri_single undefinedRuntime cpathFn cache input _ s algo d
      hparse hpick hds]
  · unfold copySync
    rw [withContentSriSync_single cpathFn cache input _ s algo d hparse hpick hds]
  · intro opts2
    rfl
  · intro b
    cases b
    · exact ⟨by decide, by decide⟩
    · exact ⟨by decide, by decide⟩

/-- C9 witness: with the file present, the copy outcome is the collaborator's
success — no verification is consulted (none is even passed to `copy`) — and
the copy exports are present exactly when the fast-copy facility exists. -/
theorem c9_copy_direct_witness :
    (copy cPathFn (fun _ _ => { time := 0, result := .ok () }) "cache" (.hash cHashA)
        "/tmp/out" {}).result = .ok ()
    ∧ "copy" ∈ moduleExports true
    ∧ "copy" ∉ moduleExports false := by
  have big := c9_copy_direct cPathFn (fun _ _ => { time := 0, result := .ok () })
    (fun _ _ => .ok ()) "cache" (.hash cHashA) "/tmp/out" {}
    { entries := [("sha512", [cHashA])] } "sha512" cHashA (by decide) (by decide) (by decide)
  refine ⟨by rw [big.1], ?_, ?_⟩
  · exact ((big.2.2.2 true).1).mpr rfl
  · intro hm
    exact absurd (((big.2.2.2 false).1).mp hm) (by decide)

/-! Claim C10. -/

/-- C10: the caller-declared expected length is enforced only when the `size`
option is of number type — for every non-number value the size check is
skipped entirely (the validation reduces to the digest check alone), no
validation failure carries `EBADSIZE`, and a full buffered read over the model
filesystem can never fail with `EBADSIZE`. -/
theorem c10_size_only_number (checkData : Bytes → Hash → Bool) (opts : ReadOpts)
    (hns : opts.size.isNumber = false) :
    (∀ (cpath : String) (d : Hash) (data : Bytes),
      readValidate checkData opts cpath d data
        = (if checkData data d then .ok data else .error (integrityError d cpath)))
    ∧ (∀ (cpath : String) (d : Hash) (data : Bytes),
      readSyncValidate checkData opts cpath d data
        = (if checkData data d then .ok data else .error (integrityError d cpath)))
    ∧ (∀ (cpath : String) (d : Hash) (data : Bytes) (e : Err),
      readValidate checkData opts cpath d data = .error e → e.code ≠ some "EBADSIZE")
    ∧ (∀ (cpath : String) (d : Hash) (data : Bytes) (e : Err),
      readSyncValidate checkData opts cpath d data = .error e → e.code ≠ some "EBADSIZE")
    ∧ (∀ (fsys : Fsys) (cpathFn : String → Hash → String) (cache : String) (hh : Hash)
        (e : Err),
      (read cpathFn (fsReadFile fsys) checkData cache (.hash hh) opts).result = .error e →
      e.code ≠ some "EBADSIZE") := by
  have hv : ∀ (cpath : String) (d : Hash) (data : Bytes),
      readValidate checkData opts cpath d data
        = (if checkData data d then .ok data else .error (integrityError d cpath)) := by
    intro cpath d data
    unfold readValidate
    cases hso : opts.size <;> simp_all [JsValue.isNumber]
  have hvs : ∀ (cpath : String) (d : Hash) (data : Bytes),
      readSyncValidate checkData opts cpath d data
        = (if checkData data d then .ok data else .error (integrityError d cpath)) := by
    intro cpath d data
    unfold readSyncValidate
    cases hso : opts.size <;> simp_all [JsValue.isNumber]
  have hnb : ∀ (cpath : String) (d : Hash) (data : Bytes) (e : Err),
      readValidate checkData opts cpath d data = .error e → e.code ≠ some "EBADSIZE" := by
    intro cpath d data e he
    rw [hv cpath d data] at he
    by_cases hc : checkData data d
    · rw [if_pos hc] at he
      cases he
    · rw [if_neg hc] at he
      have : integrityError d cpath = e := Except.error.inj he
      rw [← this]
      simp [integrityError]
  refine ⟨hv, hvs, hnb, ?_, ?_⟩
  · intro cpath d data e he
    rw [hvs cpath d data] at he
    by_cases hc : checkData data d
    · rw [if_pos hc] at he
      cases he
    · rw [if_neg hc] at he
      have : integrityError d cpath = e := Except.error.inj he
      rw [← this]
      simp [integrityError]
  · intro fsys cpathFn cache hh e he
    unfold read at he
    rw [withContentSri_hash (objectRuntime Bytes) cpathFn cache hh _] at he
    rw [withContentSriEntry] at he
    cases hf : fsys (cpathFn cache hh) with
    | none =>
      have : enoentError (cpathFn cache hh) = e := by
        have hres : ((fsReadFile fsys (cpathFn cache hh)).thenE
            (fun data => readValidate checkData opts (cpathFn cache hh) hh data)).result
            = .error (enoentError (cpathFn cache hh)) := by
          simp [fsReadFile, Promise.thenE, Except.bind, hf]
        rw [hres] at he
        exact Except.error.inj he
      rw [← this]
      simp [enoentError]
    | some data =>
      have hres : ((fsReadFile fsys (cpathFn cache hh)).thenE
          (fun data2 => readValidate checkData opts (cpathFn cache hh) hh data2)).result
          = readValidate checkData opts (cpathFn cache hh) hh data := by
        simp [fsReadFile, Promise.thenE, Except.bind, hf]
      rw [hres] at he
      exact hnb _ _ _ _ he

/-- C10 witness: a string-valued `size` option is ignored: the read validates
by digest alone and succeeds on bytes whose length disagrees with it. -/
theorem c10_size_only_number_witness :
    JsValue.isNumber (JsValue.str "big") = false
    ∧ readValidate (fun _ _ => true) { size := .str "big" } "p" cHashA [7] = .ok [7] := by
  have big := c10_size_only_number (fun _ _ => true) { size := .str "big" } (by decide)
  refine ⟨by decide, ?_⟩
  rw [big.1 "p" cHashA [7]]
  decide

end Cacache
